import Mathlib

/-!
Shallow embedding of `oscrypto/_pkcs12.py` (the `pkcs12_kdf` function, RFC 7292
appendix B.2 KDF), Python 3 branch.  Byte strings are `List Nat` (each element a
byte value), big integers are `Nat`, and the two fallible operations of the body
(UTF-8 decoding of the password) return `Option`.  The hash primitives from
`hashlib` are external collaborators: they enter as a function parameter
`hashes : String → List Nat → List Nat` standing for `getattr(hashlib, name)`
followed by `.digest()`.
-/

/-- A Python value, as far as the dynamic `isinstance` checks of `pkcs12_kdf`
care: a byte string, a text string, or an integer. -/
inductive PyVal where
  | bytes (bs : List Nat)
  | text (s : String)
  | int (n : Int)
deriving DecidableEq

/-- The distinct failures `pkcs12_kdf` can raise.  The first six model the six
`ValueError`s of the validation block (lines 50-72), each with its own message;
`passwordNotUtf8` models the `UnicodeDecodeError` that `password.decode('utf-8')`
raises on line 74 when the password is not valid UTF-8. -/
inductive KdfError where
  | passwordNotBytes
  | saltNotBytes
  | iterationsTooSmall
  | keyLengthTooSmall
  | unsupportedHashAlgorithm
  | invalidId
  | passwordNotUtf8
deriving DecidableEq

/-- Is a byte a UTF-8 continuation byte (0x80..0xBF)? -/
def isCont (b : Nat) : Prop := 0x80 ≤ b ∧ b ≤ 0xBF

instance (b : Nat) : Decidable (isCont b) := by unfold isCont; infer_instance

/-- Helper for `utf8Decode`, structurally recursive on a fuel argument so that
it evaluates inside the kernel; `fuel = length` always suffices because every
step consumes at least one byte. -/
def utf8DecodeAux : Nat → List Nat → Option (List Nat)
  | _, [] => some []
  | 0, _ :: _ => none
  | fuel + 1, b1 :: t1 =>
    if b1 ≤ 0x7F then
      (utf8DecodeAux fuel t1).map (fun cs => b1 :: cs)
    else if 0xC2 ≤ b1 ∧ b1 ≤ 0xDF then
      match t1 with
      | b2 :: t2 =>
        if isCont b2 then
          (utf8DecodeAux fuel t2).map (fun cs => ((b1 - 0xC0) * 0x40 + (b2 - 0x80)) :: cs)
        else none
      | [] => none
    else if 0xE0 ≤ b1 ∧ b1 ≤ 0xEF then
      match t1 with
      | b2 :: b3 :: t3 =>
        if ((b1 = 0xE0 ∧ 0xA0 ≤ b2 ∧ b2 ≤ 0xBF) ∨
            (0xE1 ≤ b1 ∧ b1 ≤ 0xEC ∧ isCont b2) ∨
            (b1 = 0xED ∧ 0x80 ≤ b2 ∧ b2 ≤ 0x9F) ∨
            (0xEE ≤ b1 ∧ b1 ≤ 0xEF ∧ isCont b2)) ∧ isCont b3 then
          (utf8DecodeAux fuel t3).map
            (fun cs => ((b1 - 0xE0) * 0x1000 + (b2 - 0x80) * 0x40 + (b3 - 0x80)) :: cs)
        else none
      | _ => none
    else if 0xF0 ≤ b1 ∧ b1 ≤ 0xF4 then
      match t1 with
      | b2 :: b3 :: b4 :: t4 =>
        if ((b1 = 0xF0 ∧ 0x90 ≤ b2 ∧ b2 ≤ 0xBF) ∨
            (0xF1 ≤ b1 ∧ b1 ≤ 0xF3 ∧ isCont b2) ∨
            (b1 = 0xF4 ∧ 0x80 ≤ b2 ∧ b2 ≤ 0x8F)) ∧ isCont b3 ∧ isCont b4 then
          (utf8DecodeAux fuel t4).map
            (fun cs => ((b1 - 0xF0) * 0x40000 + (b2 - 0x80) * 0x1000 +
                        (b3 - 0x80) * 0x40 + (b4 - 0x80)) :: cs)
        else none
      | _ => none
    else none

/-- Strict UTF-8 decoding, as `bytes.decode('utf-8')` does in Python 3: rejects
overlong encodings, surrogate code points U+D800..U+DFFF, code points above
U+10FFFF, truncated sequences and stray continuation bytes.  Returns the list
of decoded code points. -/
def utf8Decode (l : List Nat) : Option (List Nat) :=
  utf8DecodeAux l.length l

/-- UTF-16 big-endian encoding of one code point (`str.encode('utf-16be')`):
code points below 0x10000 become two bytes, the rest a surrogate pair. -/
def utf16beEncodeChar (cp : Nat) : List Nat :=
  if cp < 0x10000 then [cp / 256, cp % 256]
  else
    let cp2 := cp - 0x10000
    let hi := 0xD800 + cp2 / 0x400
    let lo := 0xDC00 + cp2 % 0x400
    [hi / 256, hi % 256, lo / 256, lo % 256]

/-- UTF-16 big-endian encoding of a list of code points (no BOM, as Python's
`'utf-16be'` codec). -/
def utf16beEncode (cps : List Nat) : List Nat :=
  (cps.map utf16beEncodeChar).flatten

/-- `asn1crypto`'s `int_from_bytes`: big-endian unsigned interpretation
(`int.from_bytes(value, 'big')`). -/
def int_from_bytes (bs : List Nat) : Nat :=
  bs.foldl (fun acc b => acc * 256 + b) 0

/-- Helper for `int_to_bytes`, structurally recursive on a fuel argument so
that it evaluates inside the kernel; `fuel = n` always suffices because the
value shrinks by a factor of 256 each step. -/
def int_to_bytes_aux : Nat → Nat → List Nat
  | 0, _ => []
  | fuel + 1, n => if n = 0 then [] else int_to_bytes_aux fuel (n / 256) ++ [n % 256]

/-- `asn1crypto`'s `int_to_bytes` for an unsigned value: the minimal big-endian
encoding, `value.to_bytes(ceil(value.bit_length() / 8), byteorder='big')` —
note a value with high-order zero bytes encodes to FEWER bytes, and 0 encodes
to the empty byte string. -/
def int_to_bytes (n : Nat) : List Nat :=
  int_to_bytes_aux n n

/-- Helper for `extendLoop`, structurally recursive on a fuel argument;
`fuel = target + 1` always suffices when `src` is non-empty because each pass
appends at least one byte.  An empty `src` would make the Python loop run
forever; the model returns the accumulator in that (unreachable) case. -/
def extendAux : Nat → List Nat → Nat → List Nat → List Nat
  | 0, _, _, acc => acc
  | fuel + 1, src, target, acc =>
    if acc.length < target then
      if src = [] then acc else extendAux fuel src target (acc ++ src)
    else acc

/-- The `while len(X) < target: X += src` loops of steps 2, 3 and 6B, starting
from the empty accumulator. -/
def extendLoop (src : List Nat) (target : Nat) : List Nat :=
  extendAux (target + 1) src target []

/-- Steps 2 and 3 of `pkcs12_kdf` (lines 96-110): stretch a non-empty source
to the smallest multiple of `v` at least its length, by repetition then
truncation; an empty source gives the empty string. -/
def buildBlock (src : List Nat) (v : Nat) : List Nat :=
  if src = [] then []
  else
    let slen := v * ((src.length + v - 1) / v)
    (extendLoop src slen).take slen

/-- The inner re-hash loop of step 6A: `for _ in range(2, iterations + 1):
A2 = algo(A2).digest()`, i.e. `k = iterations - 1` further applications. -/
def hashLoop (algo : List Nat → List Nat) : Nat → List Nat → List Nat
  | 0, a => a
  | k + 1, a => hashLoop algo k (algo a)

/-- One pass of the step 6C loop body (lines 135-147): slice out the chunk
`I[start:end]`, add `B`, re-encode, truncate from the high-order side when the
encoding exceeds `v` bytes, and splice the result back in. -/
def chunkStep (Bint v : Nat) (I : List Nat) (j : Nat) : List Nat :=
  let start := j * v
  let e := (j + 1) * v
  let I_j := (I.drop start).take (e - start)
  let I_j2 := int_to_bytes (int_from_bytes I_j + Bint)
  let I_j3 := if I_j2.length > v then I_j2.drop (I_j2.length - v) else I_j2
  I.take start ++ I_j3 ++ I.drop e

/-- Step 6C (lines 135-147): `for j in range(0, len(I) // v)` — the bound is
computed once from `I` as it is when the loop starts, while `I` itself is
rebound inside the loop. -/
def updateI (Bint v : Nat) (I : List Nat) : List Nat :=
  (List.range (I.length / v)).foldl (chunkStep Bint v) I

/-- One iteration `i` of the main `for i in range(1, c + 1)` loop
(lines 120-152), acting on the state `(I, A)`. -/
def kdfStep (algo : List Nat → List Nat) (its v u kl c : Nat) (D : List Nat)
    (st : List Nat × List Nat) (i : Nat) : List Nat × List Nat :=
  let I := st.1
  let A := st.2
  let A2 := hashLoop algo (its - 1) (algo (D ++ I))
  let I' := if i < c then
      let B := extendLoop A2 v
      let Bint := int_from_bytes (B.take v) + 1
      updateI Bint v I
    else I
  let beg := (i - 1) * u
  let to_copy := min kl u
  let A' := A.take beg ++ A2.take to_copy ++ A.drop (beg + to_copy)
  (I', A')

/-- The whole main loop, `i` running from 1 to `c` inclusive. -/
def kdfLoop (algo : List Nat → List Nat) (its v u kl c : Nat)
    (D I0 A0 : List Nat) : List Nat × List Nat :=
  (List.range' 1 c).foldl (kdfStep algo its v u kl c D) (I0, A0)

/-- The `u` table of lines 79-86: native digest output length in bytes. -/
def uTable (alg : String) : Nat :=
  if alg = "md5" then 16
  else if alg = "sha1" then 20
  else if alg = "sha224" then 28
  else if alg = "sha256" then 32
  else if alg = "sha384" then 48
  else 64

/-- Lines 88-91: block size `v` is 128 bytes for sha384/sha512, 64 otherwise. -/
def vTable (alg : String) : Nat :=
  if alg = "sha384" ∨ alg = "sha512" then 128 else 64

/-- The supported hash algorithm names (line 68). -/
def supportedAlgos : List String :=
  ["md5", "sha1", "sha224", "sha256", "sha384", "sha512"]

/-- The body of `pkcs12_kdf` after validation (lines 74-154), for a resolved
digest function `algo` and digest parameters `(u, v)`.  The only failure is
the UTF-8 decoding of the password on line 74. -/
def pkcs12Derive (algo : List Nat → List Nat) (u v : Nat) (pw st : List Nat)
    (iterations key_length id_ : Int) : Except KdfError (List Nat) :=
  match utf8Decode pw with
  | none => Except.error KdfError.passwordNotUtf8
  | some cps =>
    let utf16_password := utf16beEncode cps ++ [0, 0]
    let D := List.replicate v id_.toNat
    let S := buildBlock st v
    let P := buildBlock utf16_password v
    let I := S ++ P
    let kl := key_length.toNat
    let c := (kl + u - 1) / u
    let A0 := List.replicate (c * u) 0
    Except.ok ((kdfLoop algo iterations.toNat v u kl c D I A0).2.take kl)

/-- `pkcs12_kdf` (lines 24-154): the validation block in source order, then the
algorithm body.  `hashes` stands for `hashlib`: the mapping from algorithm name
to one-shot digest function. -/
def pkcs12_kdf (hashes : String → List Nat → List Nat) (hash_algorithm : String) :
    PyVal → PyVal → Int → Int → Int → Except KdfError (List Nat)
  | PyVal.bytes pw, PyVal.bytes st, iterations, key_length, id_ =>
    if iterations < 1 then Except.error KdfError.iterationsTooSmall
    else if key_length < 1 then Except.error KdfError.keyLengthTooSmall
    else if hash_algorithm ∉ supportedAlgos then Except.error KdfError.unsupportedHashAlgorithm
    else if ¬(id_ = 1 ∨ id_ = 2 ∨ id_ = 3) then Except.error KdfError.invalidId
    else pkcs12Derive (hashes hash_algorithm) (uTable hash_algorithm)
      (vTable hash_algorithm) pw st iterations key_length id_
  | PyVal.bytes _, _, _, _, _ => Except.error KdfError.saltNotBytes
  | _, _, _, _, _ => Except.error KdfError.passwordNotBytes

/-! ## Helper lemmas -/

/-- The inner re-hash loop is function iteration. -/
theorem hashLoop_eq_iterate (algo : List Nat → List Nat) :
    ∀ (k : Nat) (a : List Nat), hashLoop algo k a = algo^[k] a := by
  intro k
  induction k with
  | zero => intro a; rfl
  | succ n ih =>
    intro a
    rw [hashLoop, ih, ← Function.iterate_succ_apply]

/-- If the digest always returns `u` bytes, so does any number of re-hashes of
a `u`-byte seed. -/
theorem hashLoop_length (algo : List Nat → List Nat) (u : Nat)
    (hlen : ∀ x, (algo x).length = u) :
    ∀ (k : Nat) (a : List Nat), a.length = u → (hashLoop algo k a).length = u := by
  intro k
  induction k with
  | zero => intro a h; exact h
  | succ n ih => intro a _; exact ih (algo a) (hlen a)

/-- One main-loop iteration with `1 ≤ i ≤ c` keeps the accumulator at
`c * u` bytes. -/
theorem kdfStep_A_length (algo : List Nat → List Nat) (its v u kl c : Nat)
    (D : List Nat) (st : List Nat × List Nat) (i : Nat)
    (hlen : ∀ x, (algo x).length = u) (hA : st.2.length = c * u)
    (hi : 1 ≤ i) (hic : i ≤ c) :
    ((kdfStep algo its v u kl c D st i).2).length = c * u := by
  have hA2 : (hashLoop algo (its - 1) (algo (D ++ st.1))).length = u :=
    hashLoop_length algo u hlen _ _ (hlen _)
  have hbeg : (i - 1) * u + u ≤ c * u := by
    have h1 : ((i - 1) + 1) * u ≤ c * u := Nat.mul_le_mul_right u (by omega)
    calc (i - 1) * u + u = ((i - 1) + 1) * u := by ring
    _ ≤ c * u := h1
  simp only [kdfStep, List.length_append, List.length_take, List.length_drop, hA, hA2]
  omega

/-- Folding main-loop iterations whose indices all lie in `1..c` keeps the
accumulator at `c * u` bytes. -/
theorem foldl_kdfStep_A_length (algo : List Nat → List Nat) (its v u kl c : Nat)
    (D : List Nat) (hlen : ∀ x, (algo x).length = u) :
    ∀ (l : List Nat) (st : List Nat × List Nat),
      (∀ i ∈ l, 1 ≤ i ∧ i ≤ c) → st.2.length = c * u →
      ((l.foldl (kdfStep algo its v u kl c D) st).2).length = c * u := by
  intro l
  induction l with
  | nil => intro st _ hA; exact hA
  | cons i t ih =>
    intro st hmem hA
    rw [List.foldl_cons]
    refine ih _ (fun j hj => hmem j (List.mem_cons_of_mem i hj)) ?_
    exact kdfStep_A_length algo its v u kl c D st i hlen hA
      (hmem i (List.mem_cons_self i t)).1 (hmem i (List.mem_cons_self i t)).2

/-- A main-loop iteration with `2 ≤ i ≤ c` does not touch the first `u` bytes
of the accumulator. -/
theorem kdfStep_take_head (algo : List Nat → List Nat) (its v u kl c : Nat)
    (D : List Nat) (st : List Nat × List Nat) (i : Nat)
    (hA : st.2.length = c * u) (hi : 2 ≤ i) (hic : i ≤ c) :
    ((kdfStep algo its v u kl c D st i).2).take u = st.2.take u := by
  have hbu : u ≤ (i - 1) * u := by
    calc u = 1 * u := (Nat.one_mul u).symm
    _ ≤ (i - 1) * u := Nat.mul_le_mul_right u (by omega)
  have hcu : u ≤ c * u := by
    calc u = 1 * u := (Nat.one_mul u).symm
    _ ≤ c * u := Nat.mul_le_mul_right u (by omega)
  have hlen1 : u ≤ (st.2.take ((i - 1) * u)).length := by
    rw [List.length_take, hA]
    omega
  simp only [kdfStep]
  rw [List.append_assoc, List.take_append_of_le_length hlen1, List.take_take]
  congr 1
  omega

/-- Folding main-loop iterations whose indices all lie in `2..c` leaves the
first `u` bytes of the accumulator unchanged. -/
theorem foldl_kdfStep_take_head (algo : List Nat → List Nat) (its v u kl c : Nat)
    (D : List Nat) (hlen : ∀ x, (algo x).length = u) :
    ∀ (l : List Nat) (st : List Nat × List Nat),
      (∀ i ∈ l, 2 ≤ i ∧ i ≤ c) → st.2.length = c * u →
      ((l.foldl (kdfStep algo its v u kl c D) st).2).take u = st.2.take u := by
  intro l
  induction l with
  | nil => intro st _ _; rfl
  | cons i t ih =>
    intro st hmem hA
    have hm := hmem i (List.mem_cons_self i t)
    rw [List.foldl_cons,
      ih _ (fun j hj => hmem j (List.mem_cons_of_mem i hj))
        (kdfStep_A_length algo its v u kl c D st i hlen hA (by omega) hm.2)]
    exact kdfStep_take_head algo its v u kl c D st i hA hm.1 hm.2

/-- `key_length` never exceeds `c * u` with `c = ceil(key_length / u)`. -/
theorem key_length_le_blocks (kl u : Nat) (hu : 0 < u) :
    kl ≤ ((kl + u - 1) / u) * u := by
  have h1 := Nat.div_add_mod (kl + u - 1) u
  have h2 : (kl + u - 1) % u < u := Nat.mod_lt _ hu
  rw [Nat.mul_comm]
  set t := u * ((kl + u - 1) / u) with ht
  omega

/-- The six supported algorithms have `u ≥ 16` and `v ∈ {64, 128}`. -/
theorem supported_uv (alg : String) (h : alg ∈ supportedAlgos) :
    16 ≤ uTable alg ∧ (vTable alg = 64 ∨ vTable alg = 128) := by
  simp only [supportedAlgos, List.mem_cons, List.not_mem_nil, or_false] at h
  rcases h with rfl | rfl | rfl | rfl | rfl | rfl <;> simp [uTable, vTable]

/-- Unfolding of `pkcs12_kdf` on inputs that pass every validation check and
whose password is valid UTF-8. -/
theorem pkcs12_kdf_valid_eq (hashes : String → List Nat → List Nat) (alg : String)
    (pwb stb : List Nat) (iterations key_length id_ : Int)
    (hits : 1 ≤ iterations) (hkl : 1 ≤ key_length) (halg : alg ∈ supportedAlgos)
    (hid : id_ = 1 ∨ id_ = 2 ∨ id_ = 3) (cps : List Nat)
    (hdec : utf8Decode pwb = some cps) :
    pkcs12_kdf hashes alg (PyVal.bytes pwb) (PyVal.bytes stb) iterations key_length id_ =
      Except.ok ((kdfLoop (hashes alg) iterations.toNat (vTable alg) (uTable alg)
        key_length.toNat ((key_length.toNat + uTable alg - 1) / uTable alg)
        (List.replicate (vTable alg) id_.toNat)
        (buildBlock stb (vTable alg) ++
          buildBlock (utf16beEncode cps ++ [0, 0]) (vTable alg))
        (List.replicate (((key_length.toNat + uTable alg - 1) / uTable alg) * uTable alg)
          0)).2.take key_length.toNat) := by
  show (if iterations < 1 then Except.error KdfError.iterationsTooSmall
    else if key_length < 1 then Except.error KdfError.keyLengthTooSmall
    else if alg ∉ supportedAlgos then Except.error KdfError.unsupportedHashAlgorithm
    else if ¬(id_ = 1 ∨ id_ = 2 ∨ id_ = 3) then Except.error KdfError.invalidId
    else pkcs12Derive (hashes alg) (uTable alg) (vTable alg) pwb stb
      iterations key_length id_) = _
  rw [if_neg (by omega), if_neg (by omega), if_neg (not_not_intro halg),
    if_neg (not_not_intro hid)]
  show (match utf8Decode pwb with
    | none => Except.error KdfError.passwordNotUtf8
    | some cps => _) = _
  rw [hdec]

/-! ## Claim theorems -/

/-- C8: the digest parameters `(u, v)` are resolved deterministically from
`hash_algorithm`: `u` is 16/20/28/32/48/64 bytes for
md5/sha1/sha224/sha256/sha384/sha512, and `v` is 128 bytes for sha384 and
sha512 and 64 bytes for the other supported algorithms. -/
theorem c8_digest_parameters :
    uTable "md5" = 16 ∧ uTable "sha1" = 20 ∧ uTable "sha224" = 28 ∧
    uTable "sha256" = 32 ∧ uTable "sha384" = 48 ∧ uTable "sha512" = 64 ∧
    vTable "sha384" = 128 ∧ vTable "sha512" = 128 ∧
    vTable "md5" = 64 ∧ vTable "sha1" = 64 ∧ vTable "sha224" = 64 ∧
    vTable "sha256" = 64 := by
  refine ⟨?_, ?_, ?_, ?_, ?_, ?_, ?_, ?_, ?_, ?_, ?_, ?_⟩ <;> simp [uTable, vTable]

/-- C9: `pkcs12_kdf` is deterministic and pure — its output is a function of
the declared arguments alone, so two calls whose digest providers agree
pointwise and whose other arguments are equal produce identical results. -/
theorem c9_deterministic (hashes1 hashes2 : String → List Nat → List Nat)
    (h : ∀ s x, hashes1 s x = hashes2 s x) (alg : String) (password salt : PyVal)
    (iterations key_length id_ : Int) :
    pkcs12_kdf hashes1 alg password salt iterations key_length id_ =
      pkcs12_kdf hashes2 alg password salt iterations key_length id_ := by
  have heq : hashes1 = hashes2 := funext fun s => funext fun x => h s x
  rw [heq]

/-- Witness for C9 at two syntactically different, pointwise-equal
providers. -/
theorem c9_deterministic_witness :
    pkcs12_kdf (fun _ _ => [0, 1]) "md5" (PyVal.bytes []) (PyVal.bytes [1]) 1 1 1 =
      pkcs12_kdf (fun _ _ => [0] ++ [1]) "md5" (PyVal.bytes [])
        (PyVal.bytes [1]) 1 1 1 :=
  c9_deterministic (fun _ _ => [0, 1]) (fun _ _ => [0] ++ [1])
    (fun _ _ => rfl) "md5" (PyVal.bytes []) (PyVal.bytes [1]) 1 1 1

/-- C3: a password or salt that is not a byte sequence is rejected with its
distinct error, and `iterations < 1`, `key_length < 1`, an unsupported
`hash_algorithm`, and an id outside `{1, 2, 3}` each fail with their own
distinct error; in every such case the result is the same for every digest
provider, i.e. no hashing and no part of the algorithm body runs. -/
theorem c3_validation_fail_fast (alg : String) (password salt : PyVal)
    (iterations key_length id_ : Int) :
    ((∀ bs, password ≠ PyVal.bytes bs) →
      ∀ hs, pkcs12_kdf hs alg password salt iterations key_length id_ =
        Except.error KdfError.passwordNotBytes)
    ∧ (∀ pw, password = PyVal.bytes pw → (∀ bs, salt ≠ PyVal.bytes bs) →
      ∀ hs, pkcs12_kdf hs alg password salt iterations key_length id_ =
        Except.error KdfError.saltNotBytes)
    ∧ (∀ pw st, password = PyVal.bytes pw → salt = PyVal.bytes st →
      iterations < 1 →
      ∀ hs, pkcs12_kdf hs alg password salt iterations key_length id_ =
        Except.error KdfError.iterationsTooSmall)
    ∧ (∀ pw st, password = PyVal.bytes pw → salt = PyVal.bytes st →
      1 ≤ iterations → key_length < 1 →
      ∀ hs, pkcs12_kdf hs alg password salt iterations key_length id_ =
        Except.error KdfError.keyLengthTooSmall)
    ∧ (∀ pw st, password = PyVal.bytes pw → salt = PyVal.bytes st →
      1 ≤ iterations → 1 ≤ key_length → alg ∉ supportedAlgos →
      ∀ hs, pkcs12_kdf hs alg password salt iterations key_length id_ =
        Except.error KdfError.unsupportedHashAlgorithm)
    ∧ (∀ pw st, password = PyVal.bytes pw → salt = PyVal.bytes st →
      1 ≤ iterations → 1 ≤ key_length → alg ∈ supportedAlgos →
      ¬(id_ = 1 ∨ id_ = 2 ∨ id_ = 3) →
      ∀ hs, pkcs12_kdf hs alg password salt iterations key_length id_ =
        Except.error KdfError.invalidId) := by
  refine ⟨?_, ?_, ?_, ?_, ?_, ?_⟩
  · intro h hs
    cases password with
    | bytes bs => exact absurd rfl (h bs)
    | text s => cases salt <;> rfl
    | int n => cases salt <;> rfl
  · rintro pw rfl h hs
    cases salt with
    | bytes bs => exact absurd rfl (h bs)
    | text s => rfl
    | int n => rfl
  · rintro pw st rfl rfl hits hs
    show (if iterations < 1 then Except.error KdfError.iterationsTooSmall
      else _) = _
    rw [if_pos hits]
  · rintro pw st rfl rfl hits hkl hs
    show (if iterations < 1 then Except.error KdfError.iterationsTooSmall
      else if key_length < 1 then Except.error KdfError.keyLengthTooSmall
      else _) = _
    rw [if_neg (by omega), if_pos hkl]
  · rintro pw st rfl rfl hits hkl halg hs
    show (if iterations < 1 then Except.error KdfError.iterationsTooSmall
      else if key_length < 1 then Except.error KdfError.keyLengthTooSmall
      else if alg ∉ supportedAlgos then
        Except.error KdfError.unsupportedHashAlgorithm
      else _) = _
    rw [if_neg (by omega), if_neg (by omega), if_pos halg]
  · rintro pw st rfl rfl hits hkl halg hid hs
    show (if iterations < 1 then Except.error KdfError.iterationsTooSmall
      else if key_length < 1 then Except.error KdfError.keyLengthTooSmall
      else if alg ∉ supportedAlgos then
        Except.error KdfError.unsupportedHashAlgorithm
      else if ¬(id_ = 1 ∨ id_ = 2 ∨ id_ = 3) then
        Except.error KdfError.invalidId
      else _) = _
    rw [if_neg (by omega), if_neg (by omega), if_neg (not_not_intro halg),
      if_pos hid]

/-- Witness for C3: every validation class at a concrete invalid input. -/
theorem c3_validation_fail_fast_witness :
    pkcs12_kdf (fun _ _ => []) "md5" (PyVal.text "x") (PyVal.bytes []) 1 1 1 =
      Except.error KdfError.passwordNotBytes
    ∧ pkcs12_kdf (fun _ _ => []) "md5" (PyVal.bytes []) (PyVal.int 3) 1 1 1 =
      Except.error KdfError.saltNotBytes
    ∧ pkcs12_kdf (fun _ _ => []) "md5" (PyVal.bytes []) (PyVal.bytes []) 0 1 1 =
      Except.error KdfError.iterationsTooSmall
    ∧ pkcs12_kdf (fun _ _ => []) "md5" (PyVal.bytes []) (PyVal.bytes []) 1 0 1 =
      Except.error KdfError.keyLengthTooSmall
    ∧ pkcs12_kdf (fun _ _ => []) "sha3" (PyVal.bytes []) (PyVal.bytes []) 1 1 1 =
      Except.error KdfError.unsupportedHashAlgorithm
    ∧ pkcs12_kdf (fun _ _ => []) "md5" (PyVal.bytes []) (PyVal.bytes []) 1 1 4 =
      Except.error KdfError.invalidId := by
  refine ⟨?_, ?_, ?_, ?_, ?_, ?_⟩
  · exact (c3_validation_fail_fast "md5" (PyVal.text "x") (PyVal.bytes []) 1 1 1).1
      (fun bs h => PyVal.noConfusion h) _
  · exact (c3_validation_fail_fast "md5" (PyVal.bytes []) (PyVal.int 3) 1 1 1).2.1
      [] rfl (fun bs h => PyVal.noConfusion h) _
  · exact (c3_validation_fail_fast "md5" (PyVal.bytes []) (PyVal.bytes []) 0 1 1).2.2.1
      [] [] rfl rfl (by omega) _
  · exact (c3_validation_fail_fast "md5" (PyVal.bytes []) (PyVal.bytes []) 1 0 1).2.2.2.1
      [] [] rfl rfl (by omega) (by omega) _
  · exact (c3_validation_fail_fast "sha3" (PyVal.bytes []) (PyVal.bytes []) 1 1 1).2.2.2.2.1
      [] [] rfl rfl (by omega) (by omega) (by simp [supportedAlgos]) _
  · exact (c3_validation_fail_fast "md5" (PyVal.bytes []) (PyVal.bytes []) 1 1 4).2.2.2.2.2
      [] [] rfl rfl (by omega) (by omega) (by simp [supportedAlgos]) (by omega) _

set_option maxRecDepth 8000 in
/-- C1 is a code bug: at a reachable state of the derivation (digest provider
returning 16 zero bytes, `hash_algorithm = "md5"`, `password = b""`,
`salt = 64 zero bytes`, `iterations = 1`, `key_length = 17` so `c = 2`,
`id = 1`, giving `v = 64`, `I = S ‖ P = 128 zero bytes`, `B = 1`), the step-6C
chunk update re-encodes chunk `I_0` to the single byte `0x01` and splices it
in unpadded, so `len(I)` becomes 65 — not 128, and no longer a multiple of
`v = 64` — contrary to the claim (and to RFC 7292's fixed-width
`I_j = (I_j + B + 1) mod 2^(8v)` the code's docstring points to, and to the
code's own `Ensure the new slice is the right size` comment). -/
theorem c1_chunk_update_shrinks_I :
    utf8Decode [] = some []
    ∧ (buildBlock (List.replicate 64 0) 64 ++
        buildBlock (utf16beEncode [] ++ [0, 0]) 64).length = 128
    ∧ (kdfStep (fun _ => List.replicate 16 0) 1 64 16 17 2 (List.replicate 64 1)
        (buildBlock (List.replicate 64 0) 64 ++
          buildBlock (utf16beEncode [] ++ [0, 0]) 64,
         List.replicate 32 0) 1).1.length = 65
    ∧ 65 % 64 ≠ 0 := by
  refine ⟨rfl, by decide, by decide, by decide⟩

/-- C2's counterexample: for the empty password the UTF-16BE encoding is the
two-byte null terminator, which is non-empty, so `P` is `v` zero bytes — not
the empty byte string the claim asserts (shown at `v = 64`, the value for
md5/sha1/sha224/sha256). -/
theorem c2_empty_password_P_not_empty :
    utf8Decode [] = some []
    ∧ utf16beEncode [] ++ [0, 0] = [0, 0]
    ∧ vTable "md5" = 64
    ∧ buildBlock [0, 0] 64 = List.replicate 64 0
    ∧ buildBlock [0, 0] 64 ≠ [] := by
  refine ⟨rfl, rfl, by simp [vTable], by decide, by decide⟩

/-- C2 (amended): empty salt and/or empty password do not fail; `S` is empty
when the salt is empty and `I = S ‖ P` then reduces to `P`; but for the empty
password `utf16_password` is the two-byte null terminator, so `P` is `v` null
bytes, not the empty string — `P` would be empty only if `utf16_password`
were empty, which cannot happen. -/
theorem c2_empty_inputs_ok (hashes : String → List Nat → List Nat) (alg : String)
    (stb pwb cps : List Nat) (iterations key_length id_ : Int)
    (hits : 1 ≤ iterations) (hkl : 1 ≤ key_length) (halg : alg ∈ supportedAlgos)
    (hid : id_ = 1 ∨ id_ = 2 ∨ id_ = 3) (hdec : utf8Decode pwb = some cps) :
    (∃ out, pkcs12_kdf hashes alg (PyVal.bytes []) (PyVal.bytes stb) iterations
      key_length id_ = Except.ok out)
    ∧ (∃ out, pkcs12_kdf hashes alg (PyVal.bytes pwb) (PyVal.bytes []) iterations
      key_length id_ = Except.ok out)
    ∧ buildBlock [] (vTable alg) = []
    ∧ (∀ P : List Nat, buildBlock [] (vTable alg) ++ P = P)
    ∧ buildBlock (utf16beEncode [] ++ [0, 0]) (vTable alg) =
      List.replicate (vTable alg) 0
    ∧ buildBlock (utf16beEncode [] ++ [0, 0]) (vTable alg) ≠ [] := by
  obtain ⟨hu16, hv⟩ := supported_uv alg halg
  refine ⟨⟨_, pkcs12_kdf_valid_eq hashes alg [] stb _ _ _ hits hkl halg hid [] rfl⟩,
    ⟨_, pkcs12_kdf_valid_eq hashes alg pwb [] _ _ _ hits hkl halg hid cps hdec⟩,
    rfl, fun P => rfl, ?_, ?_⟩
  · rcases hv with h | h <;> rw [h] <;> decide
  · rcases hv with h | h <;> rw [h] <;> decide

/-- Witness for C2's amended theorem. -/
theorem c2_empty_inputs_ok_witness :
    ∃ out, pkcs12_kdf (fun _ _ => List.replicate 20 0) "sha1" (PyVal.bytes [])
      (PyVal.bytes []) 1 1 1 = Except.ok out :=
  (c2_empty_inputs_ok (fun _ _ => List.replicate 20 0) "sha1" [] [] [] 1 1 1
    (by omega) (by omega) (by simp [supportedAlgos]) (Or.inl rfl) rfl).1

/-- The body of `pkcs12_kdf` fails exactly when the password is not valid
UTF-8. -/
theorem pkcs12Derive_decode_fail (algo : List Nat → List Nat) (u v : Nat)
    (pw st : List Nat) (iterations key_length id_ : Int)
    (h : utf8Decode pw = none) :
    pkcs12Derive algo u v pw st iterations key_length id_ =
      Except.error KdfError.passwordNotUtf8 := by
  show (match utf8Decode pw with
    | none => Except.error KdfError.passwordNotUtf8
    | some cps => _) = _
  rw [h]

/-- C4 (amended): `pkcs12_kdf` succeeds exactly when every validation check
passes AND the password decodes as UTF-8; equivalently, it raises iff a
validation check fails or the password is not valid UTF-8 — the original
claim's "validation passed implies no error" fails only on the UTF-8 decode
of the body. -/
theorem c4_success_iff (hashes : String → List Nat → List Nat) (alg : String)
    (password salt : PyVal) (iterations key_length id_ : Int) :
    (∃ out, pkcs12_kdf hashes alg password salt iterations key_length id_ =
      Except.ok out) ↔
      ∃ pwb stb cps, password = PyVal.bytes pwb ∧ salt = PyVal.bytes stb ∧
        1 ≤ iterations ∧ 1 ≤ key_length ∧ alg ∈ supportedAlgos ∧
        (id_ = 1 ∨ id_ = 2 ∨ id_ = 3) ∧ utf8Decode pwb = some cps := by
  constructor
  · rintro ⟨out, hout⟩
    cases password with
    | text s =>
      have h : pkcs12_kdf hashes alg (PyVal.text s) salt iterations key_length
          id_ = Except.error KdfError.passwordNotBytes := by cases salt <;> rfl
      rw [h] at hout
      exact Except.noConfusion hout
    | int n =>
      have h : pkcs12_kdf hashes alg (PyVal.int n) salt iterations key_length
          id_ = Except.error KdfError.passwordNotBytes := by cases salt <;> rfl
      rw [h] at hout
      exact Except.noConfusion hout
    | bytes pwb =>
      cases salt with
      | text s => exact Except.noConfusion hout
      | int n => exact Except.noConfusion hout
      | bytes stb =>
        have hout' : (if iterations < 1 then
            Except.error KdfError.iterationsTooSmall
          else if key_length < 1 then Except.error KdfError.keyLengthTooSmall
          else if alg ∉ supportedAlgos then
            Except.error KdfError.unsupportedHashAlgorithm
          else if ¬(id_ = 1 ∨ id_ = 2 ∨ id_ = 3) then
            Except.error KdfError.invalidId
          else pkcs12Derive (hashes alg) (uTable alg) (vTable alg) pwb stb
            iterations key_length id_) = Except.ok out := hout
        split_ifs at hout' with h1 h2 h3 h4
        cases hdec : utf8Decode pwb with
        | none =>
          rw [pkcs12Derive_decode_fail (hashes alg) (uTable alg) (vTable alg)
            pwb stb iterations key_length id_ hdec] at hout'
          exact Except.noConfusion hout'
        | some cps =>
          exact ⟨pwb, stb, cps, rfl, rfl, by omega, by omega, h3, h4, hdec⟩
  · rintro ⟨pwb, stb, cps, rfl, rfl, hits, hkl, halg, hid, hdec⟩
    exact ⟨_, pkcs12_kdf_valid_eq hashes alg pwb stb iterations key_length id_
      hits hkl halg hid cps hdec⟩

/-- Witness for C4's amended theorem. -/
theorem c4_success_iff_witness :
    ∃ out, pkcs12_kdf (fun _ _ => []) "md5" (PyVal.bytes [97]) (PyVal.bytes [])
      1 1 1 = Except.ok out :=
  (c4_success_iff (fun _ _ => []) "md5" (PyVal.bytes [97]) (PyVal.bytes [])
    1 1 1).mpr
    ⟨[97], [], [97], rfl, rfl, by omega, by omega, by simp [supportedAlgos],
      Or.inl rfl, rfl⟩

/-- C5: for every valid input whose digest provider returns `u`-byte digests,
the derived key has length exactly `key_length`. -/
theorem c5_output_length (hashes : String → List Nat → List Nat) (alg : String)
    (pwb stb cps : List Nat) (iterations key_length id_ : Int)
    (hits : 1 ≤ iterations) (hkl : 1 ≤ key_length) (halg : alg ∈ supportedAlgos)
    (hid : id_ = 1 ∨ id_ = 2 ∨ id_ = 3) (hdec : utf8Decode pwb = some cps)
    (hlen : ∀ x, (hashes alg x).length = uTable alg) :
    ∃ out, pkcs12_kdf hashes alg (PyVal.bytes pwb) (PyVal.bytes stb) iterations
      key_length id_ = Except.ok out ∧ out.length = key_length.toNat := by
  refine ⟨_, pkcs12_kdf_valid_eq hashes alg pwb stb _ _ _ hits hkl halg hid cps
    hdec, ?_⟩
  have hu16 : 16 ≤ uTable alg := (supported_uv alg halg).1
  have hlenA : ((kdfLoop (hashes alg) iterations.toNat (vTable alg) (uTable alg)
      key_length.toNat ((key_length.toNat + uTable alg - 1) / uTable alg)
      (List.replicate (vTable alg) id_.toNat)
      (buildBlock stb (vTable alg) ++
        buildBlock (utf16beEncode cps ++ [0, 0]) (vTable alg))
      (List.replicate (((key_length.toNat + uTable alg - 1) / uTable alg) *
        uTable alg) 0)).2).length =
      ((key_length.toNat + uTable alg - 1) / uTable alg) * uTable alg := by
    refine foldl_kdfStep_A_length (hashes alg) iterations.toNat (vTable alg)
      (uTable alg) key_length.toNat _ _ hlen _ _ ?_ (by simp)
    intro i hi
    rw [List.mem_range'_1] at hi
    omega
  rw [List.length_take, hlenA]
  have hb := key_length_le_blocks key_length.toNat (uTable alg) (by omega)
  omega

/-- Witness for C5. -/
theorem c5_output_length_witness :
    ∃ out, pkcs12_kdf (fun _ _ => List.replicate 16 0) "md5" (PyVal.bytes [])
      (PyVal.bytes [3]) 1 5 1 = Except.ok out ∧ out.length = (5 : Int).toNat :=
  c5_output_length (fun _ _ => List.replicate 16 0) "md5" [] [3] [] 1 5 1
    (by omega) (by omega) (by simp [supportedAlgos]) (Or.inl rfl) rfl
    (fun x => by simp [uTable])

/-- C6: the block value `A2` of each main-loop iteration `i` is exactly
`iterations` applications of the selected hash from the seed `D ‖ I`: the
inner loop performs `iterations - 1` re-hashes on top of the initial
`hash(D ‖ I)`, and the bytes written into the accumulator come from that
value. -/
theorem c6_block_hash_count (algo : List Nat → List Nat) (its : Nat)
    (hits : 1 ≤ its) (v u kl c i : Nat) (D I A : List Nat) :
    hashLoop algo (its - 1) (algo (D ++ I)) = algo^[its] (D ++ I)
    ∧ (kdfStep algo its v u kl c D (I, A) i).2 =
        A.take ((i - 1) * u) ++ (algo^[its] (D ++ I)).take (min kl u) ++
          A.drop ((i - 1) * u + min kl u) := by
  have h1 : hashLoop algo (its - 1) (algo (D ++ I)) = algo^[its] (D ++ I) := by
    rw [hashLoop_eq_iterate, ← Function.iterate_succ_apply]
    congr 1
    omega
  refine ⟨h1, ?_⟩
  simp only [kdfStep]
  rw [h1]

/-- Witness for C6 at a concrete hash, seed and state. -/
theorem c6_block_hash_count_witness :
    hashLoop (fun l : List Nat => l ++ [7]) (2 - 1)
        ((fun l : List Nat => l ++ [7]) ([1] ++ [2])) =
      (fun l : List Nat => l ++ [7])^[2] ([1] ++ [2])
    ∧ (kdfStep (fun l : List Nat => l ++ [7]) 2 4 3 5 2 [1]
        ([2], [3, 4, 5, 6, 7, 8]) 1).2 =
      [3, 4, 5, 6, 7, 8].take ((1 - 1) * 3) ++
        ((fun l : List Nat => l ++ [7])^[2] ([1] ++ [2])).take (min 5 3) ++
        [3, 4, 5, 6, 7, 8].drop ((1 - 1) * 3 + min 5 3) :=
  c6_block_hash_count (fun l => l ++ [7]) 2 (by omega) 4 3 5 2 1 [1] [2]
    [3, 4, 5, 6, 7, 8]

/-- C10: with `c = ceil(key_length / u)` and a `u`-byte digest, every prefix
of the main loop leaves the accumulator at exactly `c * u` bytes, and
`key_length ≤ c * u`, so the final `A[0:key_length]` truncation always has
`key_length` bytes available. -/
theorem c10_accumulator_length (algo : List Nat → List Nat) (its v u kl : Nat)
    (hu : 1 ≤ u) (hlen : ∀ x, (algo x).length = u) (D I0 : List Nat) :
    (∀ j, j ≤ (kl + u - 1) / u →
      (((List.range' 1 j).foldl (kdfStep algo its v u kl ((kl + u - 1) / u) D)
        (I0, List.replicate (((kl + u - 1) / u) * u) 0)).2).length =
        ((kl + u - 1) / u) * u)
    ∧ kl ≤ ((kl + u - 1) / u) * u := by
  constructor
  · intro j hj
    refine foldl_kdfStep_A_length algo its v u kl _ D hlen _ _ ?_ (by simp)
    intro i hi
    rw [List.mem_range'_1] at hi
    omega
  · exact key_length_le_blocks kl u hu

/-- Witness for C10 with `u = 4`, `key_length = 6`, so `c = 2`. -/
theorem c10_accumulator_length_witness :
    (((List.range' 1 2).foldl
      (kdfStep (fun _ => List.replicate 4 0) 1 8 4 6 ((6 + 4 - 1) / 4) [])
      ([], List.replicate (((6 + 4 - 1) / 4) * 4) 0)).2).length =
      ((6 + 4 - 1) / 4) * 4
    ∧ 6 ≤ ((6 + 4 - 1) / 4) * 4 := by
  have h := c10_accumulator_length (fun _ => List.replicate 4 0) 1 8 4 6
    (by omega) (fun x => by simp) [] []
  exact ⟨h.1 2 (by omega), h.2⟩

/-- The first main-loop iteration writes `A2` over the front of the
accumulator. -/
theorem kdfStep_one_A (algo : List Nat → List Nat) (its v u kl c : Nat)
    (D I0 A0 : List Nat) :
    (kdfStep algo its v u kl c D (I0, A0) 1).2 =
      (hashLoop algo (its - 1) (algo (D ++ I0))).take (min kl u) ++
        A0.drop (min kl u) := by
  simp only [kdfStep, Nat.sub_self, Nat.zero_mul, List.take_zero,
    List.nil_append, Nat.zero_add]

/-- Core of C7: the first `u` output bytes for `key_length = u` (one block)
and `key_length = 2u + 5` (three blocks) coincide — later blocks never touch
the first block's bytes. -/
theorem kdfLoop_take_head_core (algo : List Nat → List Nat) (u : Nat)
    (hu : 5 ≤ u) (hlen : ∀ x, (algo x).length = u) (its v : Nat)
    (D I0 : List Nat) :
    ((kdfLoop algo its v u u 1 D I0 (List.replicate (1 * u) 0)).2.take u).take u
      = ((kdfLoop algo its v u (2 * u + 5) 3 D I0
          (List.replicate (3 * u) 0)).2.take (2 * u + 5)).take u := by
  have hA2len : (hashLoop algo (its - 1) (algo (D ++ I0))).length = u :=
    hashLoop_length algo u hlen _ _ (hlen _)
  have hsideA : (kdfLoop algo its v u u 1 D I0
      (List.replicate (1 * u) 0)).2.take u =
      (hashLoop algo (its - 1) (algo (D ++ I0))).take u := by
    show ((List.range' 1 1).foldl (kdfStep algo its v u u 1 D)
      (I0, List.replicate (1 * u) 0)).2.take u = _
    rw [show List.range' 1 1 = [1] from rfl, List.foldl_cons, List.foldl_nil,
      kdfStep_one_A, Nat.min_self,
      List.take_append_of_le_length (by rw [List.length_take, hA2len]; omega),
      List.take_take, Nat.min_self]
  have hst1 : (kdfStep algo its v u (2 * u + 5) 3 D
      (I0, List.replicate (3 * u) 0) 1).2 =
      (hashLoop algo (its - 1) (algo (D ++ I0))).take u ++
        (List.replicate (3 * u) (0 : Nat)).drop u := by
    rw [kdfStep_one_A, min_eq_right (by omega)]
  have hst1len : ((kdfStep algo its v u (2 * u + 5) 3 D
      (I0, List.replicate (3 * u) 0) 1).2).length = 3 * u := by
    rw [hst1, List.length_append, List.length_take, List.length_drop,
      List.length_replicate, hA2len]
    omega
  have hsideB : (kdfLoop algo its v u (2 * u + 5) 3 D I0
      (List.replicate (3 * u) 0)).2.take u =
      (hashLoop algo (its - 1) (algo (D ++ I0))).take u := by
    show ((List.range' 1 3).foldl (kdfStep algo its v u (2 * u + 5) 3 D)
      (I0, List.replicate (3 * u) 0)).2.take u = _
    rw [show List.range' 1 3 = [1, 2, 3] from rfl, List.foldl_cons,
      foldl_kdfStep_take_head algo its v u (2 * u + 5) 3 D hlen [2, 3] _
        (by intro i hi; fin_cases hi <;> exact ⟨by omega, by omega⟩) hst1len,
      hst1,
      List.take_append_of_le_length (by rw [List.length_take, hA2len]; omega),
      List.take_take, Nat.min_self]
  rw [hsideA, List.take_take, Nat.min_self, List.take_take,
    min_eq_left (by omega), hsideB]

/-- C7: with any supported algorithm and a `u`-byte digest provider, the
outputs for `key_length = u` and `key_length = 2u + 5` (all other parameters
equal) agree on their first `u` bytes: earlier blocks do not depend on the
requested total length. -/
theorem c7_prefix_independent_of_key_length
    (hashes : String → List Nat → List Nat) (alg : String)
    (pwb stb cps : List Nat) (iterations id_ : Int)
    (halg : alg ∈ supportedAlgos)
    (hlen : ∀ x, (hashes alg x).length = uTable alg)
    (hits : 1 ≤ iterations) (hid : id_ = 1 ∨ id_ = 2 ∨ id_ = 3)
    (hdec : utf8Decode pwb = some cps) :
    ∃ out1 out2,
      pkcs12_kdf hashes alg (PyVal.bytes pwb) (PyVal.bytes stb) iterations
        ((uTable alg : Nat) : Int) id_ = Except.ok out1
      ∧ pkcs12_kdf hashes alg (PyVal.bytes pwb) (PyVal.bytes stb) iterations
        (2 * ((uTable alg : Nat) : Int) + 5) id_ = Except.ok out2
      ∧ out1.take (uTable alg) = out2.take (uTable alg) := by
  have hu16 : 16 ≤ uTable alg := (supported_uv alg halg).1
  have e1 := pkcs12_kdf_valid_eq hashes alg pwb stb iterations
    ((uTable alg : Nat) : Int) id_ hits (by omega) halg hid cps hdec
  have e2 := pkcs12_kdf_valid_eq hashes alg pwb stb iterations
    (2 * ((uTable alg : Nat) : Int) + 5) id_ hits (by omega) halg hid cps hdec
  have ht1 : (((uTable alg : Nat) : Int)).toNat = uTable alg := by omega
  have ht2 : ((2 * ((uTable alg : Nat) : Int) + 5)).toNat =
      2 * uTable alg + 5 := by omega
  rw [ht1] at e1
  rw [ht2] at e2
  have hc1 : (uTable alg + uTable alg - 1) / uTable alg = 1 := by
    rw [Nat.div_eq_of_lt_le] <;> omega
  have hc2 : (2 * uTable alg + 5 + uTable alg - 1) / uTable alg = 3 := by
    rw [Nat.div_eq_of_lt_le] <;> omega
  rw [hc1] at e1
  rw [hc2] at e2
  refine ⟨_, _, e1, e2, ?_⟩
  exact kdfLoop_take_head_core (hashes alg) (uTable alg) (by omega) hlen
    iterations.toNat (vTable alg) (List.replicate (vTable alg) id_.toNat)
    (buildBlock stb (vTable alg) ++
      buildBlock (utf16beEncode cps ++ [0, 0]) (vTable alg))

/-- Witness for C7. -/
theorem c7_prefix_independent_of_key_length_witness :
    ∃ out1 out2,
      pkcs12_kdf (fun _ _ => List.replicate 16 0) "md5" (PyVal.bytes [])
        (PyVal.bytes []) 1 ((uTable "md5" : Nat) : Int) 1 = Except.ok out1
      ∧ pkcs12_kdf (fun _ _ => List.replicate 16 0) "md5" (PyVal.bytes [])
        (PyVal.bytes []) 1 (2 * ((uTable "md5" : Nat) : Int) + 5) 1 =
        Except.ok out2
      ∧ out1.take (uTable "md5") = out2.take (uTable "md5") :=
  c7_prefix_independent_of_key_length (fun _ _ => List.replicate 16 0) "md5"
    [] [] [] 1 1 (by simp [supportedAlgos]) (fun x => by simp [uTable])
    (by omega) (Or.inl rfl) rfl

/-- C4's counterexample: `password = b"\xff"` passes every listed validation
check (byte string, `iterations ≥ 1`, `key_length ≥ 1`, supported algorithm,
id in `{1,2,3}`), yet the body fails on line 74: `b"\xff".decode('utf-8')`
raises `UnicodeDecodeError`. -/
theorem c4_body_can_fail_on_valid_input :
    utf8Decode [255] = none
    ∧ (1 : Int) ≤ 1
    ∧ "md5" ∈ supportedAlgos
    ∧ ((1 : Int) = 1 ∨ (1 : Int) = 2 ∨ (1 : Int) = 3)
    ∧ pkcs12_kdf (fun _ _ => List.replicate 16 0) "md5" (PyVal.bytes [255])
        (PyVal.bytes []) 1 1 1 = Except.error KdfError.passwordNotUtf8 := by
  refine ⟨rfl, by omega, by simp [supportedAlgos], Or.inl rfl, rfl⟩
